import Mathlib

/-!
Verification development for the gohome home-automation hub.

The definitions below are a shallow embedding of the repository's Go
sources, chiefly `device.go` (command translation, streaming tokenizer,
connection handling) and the recipe/automation file (trigger listeners,
enablement, action execution).  Go strings are modelled as `String` /
`List Char` (the wire protocol is ASCII), Go maps as association lists,
nil pointers as `Option`, a nil-pointer dereference (runtime panic) as
`Except.error ()`, and `float64` intensities as exact scaled decimals
(`DecF`), which agrees with the double-precision behaviour on all
two-decimal protocol values.
-/

/-- Boolean prefix test on character lists; models Go `strings.HasPrefix`. -/
def listIsPre : List Char → List Char → Bool
  | [], _ => true
  | _ :: _, [] => false
  | a :: as, b :: bs => a = b && listIsPre as bs

/-- Models Go `strings.HasPrefix s pre`. -/
def strHasPre (pre s : String) : Bool := listIsPre pre.toList s.toList

/-- Split a character list at the first occurrence of `sep`: returns the
segment before it and the remainder after it.  Used to model a greedy
regex group `[^,]+` followed by a literal `,`: such a group is forced to
end at the first separator. -/
def splitFirst (sep : Char) : List Char → Option (List Char × List Char)
  | [] => none
  | c :: cs =>
    if c = sep then some ([], cs)
    else (splitFirst sep cs).map (fun p => (c :: p.1, p.2))

/-- Index of the first newline character, if any. -/
def firstNLIdx : List Char → Option Nat
  | [] => none
  | c :: cs => if c = '\n' then some 0 else (firstNLIdx cs).map (fun n => n + 1)

/-- Decimal digits of `n`, most significant first (fuel-based so that the
kernel can evaluate it). -/
def natDigitsAux : Nat → Nat → List Char
  | 0, _ => []
  | fuel+1, n => if n = 0 then [] else natDigitsAux fuel (n / 10) ++ [Char.ofNat (48 + n % 10)]

/-- Decimal rendering of a natural number; models Go integer formatting. -/
def natToStr (n : Nat) : String := if n = 0 then "0" else String.mk (natDigitsAux (n+1) n)

/-- Numeric value of a digit list (assumes all characters are digits). -/
def digitsToNat (l : List Char) : Nat := l.foldl (fun a c => a * 10 + (c.toNat - 48)) 0

/-- All characters are ASCII digits. -/
def allDigits (l : List Char) : Bool := l.all Char.isDigit

/-- Zone from `gohome`: a controllable output channel (the fields used by
`device.go`). -/
structure Zone where
  LocalID : String
  GlobalID : String
  Name : String
  deriving DecidableEq, Repr

/-- Button from `gohome`: a control point on a device (the fields used by
`device.go`). -/
structure Button where
  LocalID : String
  GlobalID : String
  Name : String
  deriving DecidableEq, Repr

/-- Device from `device.go`: identity fields plus the child tables
`Buttons`, `Devices` and `Zones` (Go maps keyed by string, modelled as
association lists). -/
inductive Device where
  | mk : String → String → String → String →
      List (String × Button) → List (String × Device) → List (String × Zone) → Device

def Device.LocalID : Device → String
  | .mk x _ _ _ _ _ _ => x

def Device.GlobalID : Device → String
  | .mk _ x _ _ _ _ _ => x

def Device.Name : Device → String
  | .mk _ _ x _ _ _ _ => x

def Device.Description : Device → String
  | .mk _ _ _ x _ _ _ => x

def Device.Buttons : Device → List (String × Button)
  | .mk _ _ _ _ x _ _ => x

def Device.Devices : Device → List (String × Device)
  | .mk _ _ _ _ _ x _ => x

def Device.Zones : Device → List (String × Zone)
  | .mk _ _ _ _ _ _ x => x

/-- Alias used where a structure field named `Device` (as in the Go
source) would otherwise shadow the type `Device`. -/
abbrev GDevice := Device

/-- Alias for `Zone`, see `GDevice`. -/
abbrev GZone := Zone

/-- Alias for `Button`, see `GDevice`. -/
abbrev GButton := Button

/-- Go map lookup: `m[key]` returns the zero value (here `none`) when the
key is absent. -/
def goLookup {α : Type} : List (String × α) → String → Option α
  | [], _ => none
  | (k, v) :: rest, key => if k = key then some v else goLookup rest key

/-- Modelled from the spec: the command-type enumeration used by
`device.go` (its defining file is not under `src/`); §3 lists the
variants set-zone-level, press-button, release-button, and `device.go`
additionally uses an unknown variant. -/
inductive CommandType where
  | CTZoneSetLevel
  | CTDevicePressButton
  | CTDeviceReleaseButton
  | CTUnknown
  deriving DecidableEq, Repr

/-- Exact scaled decimal `mant * 10 ^ (-exp)`; models the `float64`
intensity values flowing through `device.go` (all protocol values carry
at most two decimals, where doubles behave exactly). -/
structure DecF where
  mant : Int
  exp : Nat
  deriving DecidableEq, Repr

def DecF.zero : DecF := { mant := 0, exp := 0 }

/-- Round-half-to-even division of naturals, as used by Go's `%.2f`
formatting at the hundredths position. -/
def roundHalfEvenN (m D : Nat) : Nat :=
  let q := m / D
  let r := m % D
  if 2 * r < D then q
  else if D < 2 * r then q + 1
  else if q % 2 = 0 then q else q + 1

/-- Go `fmt.Sprintf("%.2f", x)`: exactly two digits after the decimal
point, rounding half to even. -/
def fmtF2 (x : DecF) : String :=
  let D := 10 ^ x.exp
  let c := roundHalfEvenN (x.mant.natAbs * 100) D
  let sign := if x.mant < 0 then "-" else ""
  sign ++ natToStr (c / 100) ++ "." ++ (if c % 100 < 10 then "0" else "") ++ natToStr (c % 100)

/-- Modelled from the spec: `StringCommand` (its defining file is not
under `src/`); §3 describes a Command as an outbound intent with a
human-readable description and an exact wire-format encoding, and
`device.go` constructs it with fields `Device`, `Friendly`, `Value`,
`Type`. -/
structure StringCommand where
  Device : Option GDevice
  Friendly : String
  Value : String
  Type' : CommandType

/-- Parameters of `buildCommand` (`device.go:200-207`); pointer fields
become `Option`. -/
structure commandBuilderParams where
  CmdType : CommandType
  Zone : Option GZone
  Intensity : DecF
  Device : Option GDevice
  SourceDevice : Option GDevice
  Button : Option GButton

/-- `buildCommand` (`device.go:209-240`).  A `.error ()` result models a
Go nil-pointer dereference panic: the zone case dereferences `p.Zone`,
and the press/release cases dereference `p.SourceDevice` and `p.Button`
without nil checks.  The default case returns nil (`.ok none`). -/
def buildCommand (p : commandBuilderParams) : Except Unit (Option StringCommand) :=
  match p.CmdType with
  | CommandType.CTZoneSetLevel =>
    match p.Zone with
    | none => .error ()
    | some z =>
      .ok (some {
        Device := p.Device,
        Friendly := "Zone [" ++ z.GlobalID ++ "] \"" ++ z.Name ++ "\" set to " ++ fmtF2 p.Intensity ++ "%",
        Value := "#OUTPUT," ++ z.LocalID ++ ",1," ++ fmtF2 p.Intensity ++ "\r\n",
        Type' := CommandType.CTZoneSetLevel })
  | CommandType.CTDevicePressButton =>
    match p.SourceDevice, p.Button with
    | some sd, some b =>
      .ok (some {
        Device := p.Device,
        Friendly := "Device [" ++ sd.GlobalID ++ "] \"" ++ sd.Name ++ "\" press button " ++ b.LocalID ++ " [" ++ b.GlobalID ++ "]",
        Value := "#DEVICE," ++ sd.Name ++ "," ++ b.LocalID ++ ",3\r\n",
        Type' := CommandType.CTDevicePressButton })
    | _, _ => .error ()
  | CommandType.CTDeviceReleaseButton =>
    match p.SourceDevice, p.Button with
    | some sd, some b =>
      .ok (some {
        Device := p.Device,
        Friendly := "Device [" ++ sd.GlobalID ++ "] \"" ++ sd.Name ++ "\" release button " ++ b.LocalID ++ " [" ++ b.GlobalID ++ "]",
        Value := "#DEVICE," ++ sd.Name ++ "," ++ b.LocalID ++ ",4\r\n",
        Type' := CommandType.CTDeviceReleaseButton })
    | _, _ => .error ()
  | CommandType.CTUnknown => .ok none

/-- Body of the submatch regexes of `device.go`: after the sentinel, match
the literal keyword (e.g. `DEVICE,`), then `([^,]+),([^,]+),(.+)\r\n`.
The greedy groups `[^,]+` are forced to end at the first comma; the body
group `(.+)` cannot cross a newline, so the terminating `\r\n` uses the
first newline after the third field, which must be preceded by `\r` and
leave the third group nonempty. -/
def matchFrameBody (kw : List Char) (l : List Char) : Option (List Char × List Char × List Char) :=
  if l.take kw.length = kw then
    let rest := l.drop kw.length
    match splitFirst ',' rest with
    | none => none
    | some (f1, rest1) =>
      if f1 = [] then none else
      match splitFirst ',' rest1 with
      | none => none
      | some (f2, rest2) =>
        if f2 = [] then none else
        match firstNLIdx rest2 with
        | none => none
        | some j =>
          if 2 ≤ j ∧ rest2.get? (j-1) = some '\r' then
            some (f1, f2, rest2.take (j-1))
          else none
  else none

/-- Leftmost-first regex search, as Go `FindStringSubmatch`: try each
start position from the left; at a position whose first character is one
of the sentinel characters, attempt the frame body match. -/
def findSubmatch (sentinels : List Char) (kw : List Char) : List Char → Option (List Char × List Char × List Char)
  | [] => none
  | c :: rest =>
    if c ∈ sentinels then
      match matchFrameBody kw rest with
      | some r => some r
      | none => findSubmatch sentinels kw rest
    else
      findSubmatch sentinels kw rest

/-- Sentinel character class `[~|#]` of the `parseDeviceCommand` regex
(`device.go:243`). -/
def deviceSentinels : List Char := ['~', '|', '#']

/-- Sentinel character class `[~|?]` of the `parseZoneCommand` regex
(`device.go:279`).  Note that it does not contain `#`. -/
def zoneSentinels : List Char := ['~', '|', '?']

/-- Go `strconv.ParseFloat` restricted to the plain decimal forms that
occur on the wire: optional sign, digits, optional fractional part.
Other accepted Go spellings (exponents, infinities) never arise here. -/
def parseFloatDec (s : String) : Option DecF :=
  let l0 := s.toList
  let signAndRest : Bool × List Char :=
    match l0 with
    | '-' :: rest => (true, rest)
    | '+' :: rest => (false, rest)
    | _ => (false, l0)
  let neg := signAndRest.1
  let l := signAndRest.2
  match splitFirst '.' l with
  | none =>
    if l ≠ [] ∧ allDigits l then
      some { mant := if neg then -(digitsToNat l : Int) else (digitsToNat l : Int), exp := 0 }
    else none
  | some (ip, fp) =>
    if (ip ≠ [] ∨ fp ≠ []) ∧ allDigits ip ∧ allDigits fp then
      let m : Nat := digitsToNat ip * 10 ^ fp.length + digitsToNat fp
      some { mant := if neg then -(m : Int) else (m : Int), exp := fp.length }
    else none

/-- `parseDeviceCommand` (`device.go:242-276`): match the regex
`[~|#]DEVICE,([^,]+),([^,]+),(.+)\r\n`; resolve the referenced device in
`d.Devices`; on action code 3/4 look up the button (no nil check — a
missing button is dereferenced by `buildCommand` and panics); otherwise
classify the action as unknown. -/
def parseDeviceCommand (d : Device) (cmd : String) : Except Unit (Option StringCommand × Option Button) :=
  match findSubmatch deviceSentinels ("DEVICE,".toList) cmd.toList with
  | none => .ok (none, none)
  | some (m1, m2, m3) =>
    let deviceID := String.mk m1
    let componentID := String.mk m2
    let cmdID := String.mk m3
    match goLookup d.Devices deviceID with
    | none => .ok (none, none)
    | some sourceDevice =>
      let ctbtn : CommandType × Option Button :=
        if cmdID = "3" then (CommandType.CTDevicePressButton, goLookup sourceDevice.Buttons componentID)
        else if cmdID = "4" then (CommandType.CTDeviceReleaseButton, goLookup sourceDevice.Buttons componentID)
        else (CommandType.CTUnknown, none)
      match buildCommand { CmdType := ctbtn.1, Zone := none, Intensity := DecF.zero,
                           Device := some d, SourceDevice := some sourceDevice, Button := ctbtn.2 } with
      | .error u => .error u
      | .ok c => .ok (c, ctbtn.2)

/-- `parseZoneCommand` (`device.go:278-312`): match the regex
`[~|?]OUTPUT,([^,]+),([^,]+),(.+)\r\n`; parse the intensity; resolve the
zone in `d.Zones`; opcode `"1"` is set-level, anything else is the
unknown command type (for which `buildCommand` returns nil). -/
def parseZoneCommand (d : Device) (cmd : String) : Except Unit (Option StringCommand × Option Zone) :=
  match findSubmatch zoneSentinels ("OUTPUT,".toList) cmd.toList with
  | none => .ok (none, none)
  | some (m1, m2, m3) =>
    let zoneID := String.mk m1
    let cmdID := String.mk m2
    match parseFloatDec (String.mk m3) with
    | none => .ok (none, none)
    | some intensity =>
      match goLookup d.Zones zoneID with
      | none => .ok (none, none)
      | some z =>
        let ct := if cmdID = "1" then CommandType.CTZoneSetLevel else CommandType.CTUnknown
        match buildCommand { CmdType := ct, Zone := some z, Intensity := intensity,
                             Device := some d, SourceDevice := none, Button := none } with
        | .error u => .error u
        | .ok c => .ok (c, some z)

/-- `parseCommandString` (`device.go:185-198`): dispatch on the frame
prefix (`~OUTPUT`/`#OUTPUT` to the zone parser, `~DEVICE`/`#DEVICE` to
the device parser); anything else is ignored. -/
def parseCommandString (d : Device) (cmd : String) : Except Unit (Option StringCommand × Option (Sum Button Zone)) :=
  if strHasPre ("~OUTPUT") cmd || strHasPre ("#OUTPUT") cmd then
    match parseZoneCommand d cmd with
    | .error u => .error u
    | .ok (c, z) => .ok (c, z.map Sum.inr)
  else if strHasPre ("~DEVICE") cmd || strHasPre ("#DEVICE") cmd then
    match parseDeviceCommand d cmd with
    | .error u => .error u
    | .ok (c, b) => .ok (c, b.map Sum.inl)
  else
    .ok (none, none)

/-- Sentinel character class `[~|#]` of the streaming split regex
(`device.go:142`). -/
def sentinelChars : List Char := ['~', '|', '#']

/-- The bracket expression `[OUTPUT|DEVICE]` of the streaming split regex
is a character class (one character drawn from this set), not an
alternation. -/
def keywordClassChars : List Char := "OUTPUT|DEVICE".toList

/-- Length of the match of `[~|#][OUTPUT|DEVICE].+\r\n` anchored at the
head of `l`, if any.  `.+` cannot cross a newline, so the terminating
`\r\n` must use the first newline after the head (at index `j` of the
tail); the body `.+` must be nonempty (`2 ≤ j`) and the newline must be
preceded by `\r`. -/
def tokenMatchLen (l : List Char) : Option Nat :=
  match l with
  | a :: b :: rest =>
    if a ∈ sentinelChars ∧ b ∈ keywordClassChars then
      match firstNLIdx rest with
      | none => none
      | some j =>
        if 2 ≤ j ∧ rest.get? (j-1) = some '\r' then some (j + 3) else none
    else none
  | _ => none

/-- `FindStringIndex` of the streaming split regex: leftmost match, as a
pair of start and end offsets. -/
def findFrameIdx : List Char → Option (Nat × Nat)
  | [] => none
  | l@(_ :: rest) =>
    match tokenMatchLen l with
    | some e => some (0, e)
    | none => (findFrameIdx rest).map (fun p => (p.1 + 1, p.2 + 1))

/-- One call of the split closure (`device.go:138-158`) on the buffered
data: if the regex matches, the token is the matched slice and the
buffer advances past its end; otherwise nothing is consumed (`advance =
0`, no token), i.e. the candidate stays buffered. -/
def scanOnce (buf : List Char) : Option (List Char × List Char) :=
  match findFrameIdx buf with
  | none => none
  | some (s, e) => some ((buf.drop s).take (e - s), buf.drop e)

/-- Emit all tokens currently available in the buffer, returning them
together with the unconsumed remainder.  The fuel argument only bounds
the recursion; `buf.length` is always enough because every emitted token
advances the buffer by at least one character. -/
def drainAux : Nat → List Char → List (List Char) × List Char
  | 0, buf => ([], buf)
  | fuel+1, buf =>
    match scanOnce buf with
    | none => ([], buf)
    | some (tok, rest) =>
      let d := drainAux fuel rest
      (tok :: d.1, d.2)

/-- `bufio.Scanner` driving the split closure over a sequence of reads:
all currently complete tokens are emitted before the next read is
appended to the remainder; at end of input a candidate without its
terminator is discarded, never emitted. -/
def runScanner : List Char → List (List Char) → List (List Char)
  | buf, [] => (drainAux buf.length buf).1
  | buf, c :: cs =>
    let d := drainAux buf.length buf
    d.1 ++ runScanner (d.2 ++ c) cs

/-- A complete frame as delimited by the streaming split regex: sentinel,
one keyword-class character, a nonempty body, and the `\r\n` terminator. -/
def frameOf (a b : Char) (body : List Char) : List Char :=
  a :: b :: (body ++ ['\r', '\n'])

/-- Fixture: a zone with local id "12". -/
def zone12 : Zone := { LocalID := "12", GlobalID := "g12", Name := "Kitchen" }

/-- Fixture: a device owning `zone12` under key "12" in its zone table. -/
def devZ : Device := Device.mk "1" "g1" "Hub" "" [] [] [("12", zone12)]

/-- Fixture: builder parameters for SetZoneLevel(zone12, 55). -/
def pZone55 : commandBuilderParams := {
  CmdType := CommandType.CTZoneSetLevel,
  Zone := some zone12,
  Intensity := { mant := 55, exp := 0 },
  Device := some devZ,
  SourceDevice := none,
  Button := none }

/-- Fixture: the command `buildCommand` produces for `pZone55`. -/
def zcmd55 : StringCommand := {
  Device := some devZ,
  Friendly := "Zone [g12] \"Kitchen\" set to 55.00%",
  Value := "#OUTPUT,12,1,55.00\r\n",
  Type' := CommandType.CTZoneSetLevel }

/-- Modelled from the spec: Event (§3) — an immutable record of something
observed: source device, parsed command, raw original frame text (its
defining file and `NewEvent` are not under `src/`; `device.go:166`
constructs it as `NewEvent(d, cmd, orig, ETUnknown, source)`). -/
structure EventM where
  device : GDevice
  cmd : StringCommand
  orig : String

/-- Operations the streaming cycle can perform on its shared resources:
the device's connection pool (`Get`/`Release`), the event channel
`evpFire`, and the done channel `evpDone` returned to the caller of
`StartProducingEvents`.  The last two constructors are part of the
vocabulary so that their absence from every trace can be stated. -/
inductive StreamOp where
  | poolGet (result : Option Nat)
  | poolRelease (conn : Nat)
  | fireSend (e : EventM)
  | doneSend (v : Bool)
  | doneClose

/-- The scanner loop of `stream` (`device.go:159-169`): each token is
parsed by `parseCommandString`; a non-nil command is sent on `evpFire`
as an event; a nil command is dropped.  The Boolean records whether a
parse panicked (which in Go unwinds out of `stream`, cutting the loop
short). -/
def processTokens (d : Device) : List (List Char) → List StreamOp × Bool
  | [] => ([], false)
  | t :: ts =>
    match parseCommandString d (String.mk t) with
    | .error _ => ([], true)
    | .ok (none, _) => processTokens d ts
    | .ok (some c, _) =>
      let rest := processTokens d ts
      (StreamOp.fireSend { device := d, cmd := c, orig := String.mk t } :: rest.1, rest.2)

/-- `stream` (`device.go:125-183`) as a trace function.  `connectResult`
is what the pool's `Get` returns (`none` models an exhausted pool, which
makes `Connect` fail before anything is acquired); `chunks` are the
successive reads the scanner sees; `readErr` is `scanner.Err()` after
the read loop.  The result pairs the operations performed with the
function's outcome: `.ok r` is a normal return (`r` the returned error
value), `.error ()` a panic unwinding out of the token loop.  The
deferred `ReleaseConnection` (`device.go:132-134`) runs on every exit of
the function body, panics included. -/
def streamTrace (d : Device) (connectResult : Option Nat) (chunks : List (List Char))
    (readErr : Option String) : List StreamOp × Except Unit (Option String) :=
  match connectResult with
  | none => ([StreamOp.poolGet none], .ok (some ("unable to connect to stream events")))
  | some c =>
    let toks := runScanner [] chunks
    let ev := processTokens d toks
    (StreamOp.poolGet (some c) :: ev.1 ++ [StreamOp.poolRelease c],
     if ev.2 then .error () else .ok readErr)

/-- Operations on the `evpDone` channel. -/
def StreamOp.isDoneOp : StreamOp → Bool
  | .doneSend _ => true
  | .doneClose => true
  | _ => false

/-- Pool releases. -/
def StreamOp.isRelease : StreamOp → Bool
  | .poolRelease _ => true
  | _ => false

/-- Inputs of one iteration of the `startStreaming` retry loop: what the
pool returns, what the connection yields, and the scanner's final error
state. -/
structure StreamCycleInput where
  connectResult : Option Nat
  chunks : List (List Char)
  readErr : Option String

/-- Trace of the first `n` iterations of `startStreaming`
(`device.go:114-123`): the loop body runs `stream` and sleeps; it
consults no stopping condition, so every iteration's trace is appended
unconditionally. -/
def startStreamingTrace (d : Device) (inputs : Nat → StreamCycleInput) : Nat → List StreamOp
  | 0 => []
  | n+1 =>
    startStreamingTrace d inputs n
      ++ (streamTrace d (inputs n).connectResult (inputs n).chunks (inputs n).readErr).1

/-- State of the `startStreaming` retry loop (`device.go:114-123`). -/
structure StreamLoopState where
  iterations : Nat
  sleptSeconds : Nat
  exited : Bool

/-- One iteration of `startStreaming`'s `for` loop: run `stream`
(logging its error, if any), sleep 10 seconds, continue.  The loop body
contains no `break` or `return` and reads no cancellation signal
(`cancelRequested` is ignored exactly as device removal is by the
source; the only stop handling is the `//TODO: Stop?` comment). -/
def startStreamingStep (cancelRequested : Bool) (streamResult : Option String)
    (s : StreamLoopState) : StreamLoopState :=
  { iterations := s.iterations + 1, sleptSeconds := s.sleptSeconds + 10, exited := false }

/-- The retry loop after `n` iterations. -/
def startStreamingRun (cancelRequested : Bool) (streamResults : Nat → Option String) : Nat → StreamLoopState
  | 0 => { iterations := 0, sleptSeconds := 0, exited := false }
  | n+1 => startStreamingStep cancelRequested (streamResults n) (startStreamingRun cancelRequested streamResults n)

/-- Whether a recipe listener is currently inside `executeAction`
(action execution is not instantaneous: it spans from call to return). -/
inductive ExecPhase where
  | idle
  | executing
  deriving DecidableEq, Repr

/-- Joint state of the two concurrent listeners that
`StartConsumingEvents` launches for one recipe: the async trigger-fire
listener and the event-stream listener. -/
structure RecipePair where
  asyncPhase : ExecPhase
  eventPhase : ExecPhase
  deriving DecidableEq, Repr

/-- Interleaved steps of the two listener goroutines of
`StartConsumingEvents` for an enabled recipe.  Each listener enters
`executeAction` when its own source fires (fire signal `true` for the
async listener, a matching event for the event listener) and it is not
already inside an execution; the source code takes no lock and checks no
shared flag, so neither entry step is guarded by the other listener's
phase. -/
inductive RecipeStep : RecipePair → RecipePair → Prop
  | asyncBegin (s : RecipePair) : s.asyncPhase = ExecPhase.idle →
      RecipeStep s { asyncPhase := ExecPhase.executing, eventPhase := s.eventPhase }
  | asyncEnd (s : RecipePair) : s.asyncPhase = ExecPhase.executing →
      RecipeStep s { asyncPhase := ExecPhase.idle, eventPhase := s.eventPhase }
  | eventBegin (s : RecipePair) : s.eventPhase = ExecPhase.idle →
      RecipeStep s { asyncPhase := s.asyncPhase, eventPhase := ExecPhase.executing }
  | eventEnd (s : RecipePair) : s.eventPhase = ExecPhase.executing →
      RecipeStep s { asyncPhase := s.asyncPhase, eventPhase := ExecPhase.idle }

/-- Reachability along interleaved listener steps. -/
def RecipeReachable : RecipePair → RecipePair → Prop := Relation.ReflTransGen RecipeStep

/-- Both listeners inside `executeAction` at once: two overlapping
executions of the same recipe's action. -/
def overlapState : RecipePair := { asyncPhase := ExecPhase.executing, eventPhase := ExecPhase.executing }

/-- Both listeners idle. -/
def idleState : RecipePair := { asyncPhase := ExecPhase.idle, eventPhase := ExecPhase.idle }

/-- Observable state of one recipe's event-consuming machinery: the
`enabled` flag, whether the two listener goroutines are running, whether
the recipe is still registered as an event consumer, and how many action
executions have happened. -/
structure ConsumerState where
  enabled : Bool
  eventListenerRunning : Bool
  asyncListenerRunning : Bool
  subscribed : Bool
  executions : Nat
  deriving DecidableEq, Repr

/-- Inputs the running recipe machinery can receive: a `SetEnabled` call,
an event delivered on its sink, or an asynchronous trigger-fire signal. -/
inductive ConsumerInput where
  | setEnabled (b : Bool)
  | deliverEvent (e : EventM)
  | fireSignal (f : Bool)

/-- An input that arrives on one of the two listening channels (not a
`SetEnabled` call). -/
def ConsumerInput.isSignal : ConsumerInput → Bool
  | .setEnabled _ => false
  | .deliverEvent _ => true
  | .fireSignal _ => true

/-- One step of the recipe machinery.  `SetEnabled` (recipe file, lines
51-53) assigns the flag and nothing else.  An event delivery runs the
body of the event-listener loop (lines 94-103): skip unless the recipe
is enabled and the trigger processes events, then consult the trigger
and execute the action on a match.  A fire signal runs the body of the
async listener (lines 77-83): if the recipe is enabled and the signal is
true, execute the action. -/
def consumerStep (tpe : Bool) (trig : EventM → Bool) (s : ConsumerState) :
    ConsumerInput → ConsumerState
  | ConsumerInput.setEnabled b => { s with enabled := b }
  | ConsumerInput.deliverEvent e =>
    if !s.enabled || !tpe then s
    else if trig e then { s with executions := s.executions + 1 }
    else s
  | ConsumerInput.fireSignal f =>
    if s.enabled then
      (if f then { s with executions := s.executions + 1 } else s)
    else s

/-- The recipe machinery over a sequence of inputs. -/
def consumerRun (tpe : Bool) (trig : EventM → Bool) (s : ConsumerState)
    (inputs : List ConsumerInput) : ConsumerState :=
  inputs.foldl (consumerStep tpe trig) s

/-- Fixture: a button with local id "3" on the sample sub-device. -/
def btn3 : Button := { LocalID := "3", GlobalID := "gb3", Name := "Scene 1" }

/-- Fixture: a sub-device registered under key "9" whose display Name
differs from its local id. -/
def subDev9 : Device := Device.mk "9" "g9" "Phantom Buttons" "" [("3", btn3)] [] []

/-- Fixture: a hub device owning `subDev9` under key "9". -/
def devD : Device := Device.mk "1" "gh1" "Hub" "" [] [("9", subDev9)] []

/-- Fixture: press-button builder parameters for `subDev9` / `btn3`. -/
def press9Params : commandBuilderParams := {
  CmdType := CommandType.CTDevicePressButton,
  Zone := none,
  Intensity := DecF.zero,
  Device := some devD,
  SourceDevice := some subDev9,
  Button := some btn3 }

/-- Fixture: a sample event for the recipe model. -/
def evSample : EventM := { device := devZ, cmd := zcmd55, orig := "x" }

/-- Fixture: a disabled recipe state with both listeners running. -/
def consumerS0 : ConsumerState := {
  enabled := false,
  eventListenerRunning := true,
  asyncListenerRunning := true,
  subscribed := true,
  executions := 0 }

theorem firstNLIdx_of_not_mem {l : List Char} (h : '\n' ∉ l) : firstNLIdx l = none := by
  induction l with
  | nil => rfl
  | cons c cs ih =>
    have hc : ¬ (c = '\n') := by
      intro hc; exact h (by simp [hc])
    have hcs : '\n' ∉ cs := by
      intro hm; exact h (List.mem_cons_of_mem _ hm)
    simp [firstNLIdx, hc, ih hcs]

theorem firstNLIdx_term {body : List Char} (h : '\n' ∉ body) (tail : List Char) :
    firstNLIdx (body ++ '\r' :: '\n' :: tail) = some (body.length + 1) := by
  induction body with
  | nil => rfl
  | cons c cs ih =>
    have hc : ¬ (c = '\n') := by
      intro hc; exact h (by simp [hc])
    have hcs : '\n' ∉ cs := by
      intro hm; exact h (List.mem_cons_of_mem _ hm)
    simp [firstNLIdx, hc, ih hcs]

theorem get?_term {α : Type} (l : List α) (x y : α) (t : List α) :
    (l ++ x :: y :: t).get? l.length = some x := by
  induction l with
  | nil => rfl
  | cons a as ih => simpa using ih

theorem tokenMatchLen_frame {a b : Char} {body : List Char}
    (ha : a ∈ sentinelChars) (hb : b ∈ keywordClassChars)
    (hne : body ≠ []) (hnl : '\n' ∉ body) :
    tokenMatchLen (frameOf a b body) = some (frameOf a b body).length := by
  have hlen : 1 ≤ body.length := List.length_pos.mpr hne
  have h1 : firstNLIdx (body ++ '\r' :: '\n' :: []) = some (body.length + 1) :=
    firstNLIdx_term hnl []
  have h2 : (body ++ '\r' :: '\n' :: []).get? (body.length + 1 - 1) = some '\r' := by
    simpa using get?_term body '\r' '\n' []
  have h3 : 2 ≤ body.length + 1 := by omega
  show tokenMatchLen (a :: b :: (body ++ ['\r', '\n'])) = _
  have hcl : (body ++ ['\r', '\n']) = body ++ '\r' :: '\n' :: [] := rfl
  rw [hcl]
  simp only [tokenMatchLen, h1]
  rw [if_pos ⟨ha, hb⟩, if_pos ⟨h3, h2⟩]
  simp [frameOf]

theorem findFrameIdx_frame {a b : Char} {body : List Char}
    (ha : a ∈ sentinelChars) (hb : b ∈ keywordClassChars)
    (hne : body ≠ []) (hnl : '\n' ∉ body) :
    findFrameIdx (frameOf a b body) = some (0, (frameOf a b body).length) := by
  have h := tokenMatchLen_frame ha hb hne hnl
  show findFrameIdx (a :: b :: (body ++ ['\r', '\n'])) = _
  simp only [findFrameIdx]
  rw [show tokenMatchLen (a :: b :: (body ++ ['\r', '\n'])) = some (frameOf a b body).length from h]

theorem tokenMatchLen_of_not_mem {l : List Char} (h : '\n' ∉ l) : tokenMatchLen l = none := by
  match l with
  | [] => rfl
  | [c] => rfl
  | a :: b :: rest =>
    have h' : '\n' ∉ rest := by
      intro hm; exact h (by simp [hm])
    simp [tokenMatchLen, firstNLIdx_of_not_mem h']

theorem findFrameIdx_of_not_mem {l : List Char} (h : '\n' ∉ l) : findFrameIdx l = none := by
  induction l with
  | nil => rfl
  | cons c cs ih =>
    have hcs : '\n' ∉ cs := by
      intro hm; exact h (List.mem_cons_of_mem _ hm)
    simp [findFrameIdx, tokenMatchLen_of_not_mem h, ih hcs]

theorem scanOnce_of_not_mem {buf : List Char} (h : '\n' ∉ buf) : scanOnce buf = none := by
  simp [scanOnce, findFrameIdx_of_not_mem h]

theorem scanOnce_frame {a b : Char} {body : List Char}
    (ha : a ∈ sentinelChars) (hb : b ∈ keywordClassChars)
    (hne : body ≠ []) (hnl : '\n' ∉ body) :
    scanOnce (frameOf a b body) = some (frameOf a b body, []) := by
  simp [scanOnce, findFrameIdx_frame ha hb hne hnl]

theorem drainAux_of_none {buf : List Char} (h : scanOnce buf = none) :
    ∀ fuel, drainAux fuel buf = ([], buf)
  | 0 => rfl
  | fuel+1 => by simp [drainAux, h]

theorem drainAux_frame {a b : Char} {body : List Char}
    (ha : a ∈ sentinelChars) (hb : b ∈ keywordClassChars)
    (hne : body ≠ []) (hnl : '\n' ∉ body) :
    ∀ fuel, drainAux (fuel+1) (frameOf a b body) = ([frameOf a b body], []) := by
  intro fuel
  have hnil : scanOnce ([] : List Char) = none := rfl
  simp [drainAux, scanOnce_frame ha hb hne hnl, drainAux_of_none hnil fuel]

theorem runScanner_flatten_nil : ∀ (cs : List (List Char)), cs.flatten = [] → runScanner [] cs = []
  | [], _ => rfl
  | c :: cs, h => by
    have hc : c = [] ∧ cs.flatten = [] := by simpa using h
    rcases hc with ⟨hc, hcs⟩
    subst hc
    have ih := runScanner_flatten_nil cs hcs
    show (drainAux 0 []).1 ++ runScanner ((drainAux 0 []).2 ++ []) cs = []
    simpa [drainAux] using ih

theorem no_nl_of_proper_pre {a b : Char} {body buf suffix : List Char}
    (ha : a ∈ sentinelChars) (hb : b ∈ keywordClassChars) (hnl : '\n' ∉ body)
    (happ : buf ++ suffix = frameOf a b body) (hs : suffix ≠ []) : '\n' ∉ buf := by
  have ha' : a ≠ '\n' := by
    intro he; subst he; revert ha; decide
  have hb' : b ≠ '\n' := by
    intro he; subst he; revert hb; decide
  have hG : '\n' ∉ (a :: b :: (body ++ ['\r'])) := by
    intro hm
    simp only [List.mem_cons, List.mem_append, List.mem_singleton] at hm
    rcases hm with hm | hm | hm | hm
    · exact ha' hm.symm
    · exact hb' hm.symm
    · exact hnl hm
    · exact absurd hm (by decide)
  have hFG : frameOf a b body = (a :: b :: (body ++ ['\r'])) ++ ['\n'] := by
    simp [frameOf]
  have hpre : buf <+: (a :: b :: (body ++ ['\r'])) ++ ['\n'] := ⟨suffix, by rw [← hFG, happ]⟩
  have hpreG : (a :: b :: (body ++ ['\r'])) <+: (a :: b :: (body ++ ['\r'])) ++ ['\n'] :=
    ⟨['\n'], rfl⟩
  have hlenF : (frameOf a b body).length = body.length + 4 := by
    simp [frameOf]
  have hlend : buf.length + suffix.length = body.length + 4 := by
    have hl := congrArg List.length happ
    rw [List.length_append, hlenF] at hl
    exact hl
  have hlenG : (a :: b :: (body ++ ['\r'])).length = body.length + 3 := by
    simp
  have hs1 : 1 ≤ suffix.length := List.length_pos.mpr hs
  have hlen : buf.length ≤ (a :: b :: (body ++ ['\r'])).length := by omega
  have hbufG : buf <+: (a :: b :: (body ++ ['\r'])) :=
    List.prefix_of_prefix_length_le hpre hpreG hlen
  intro hm
  exact hG (hbufG.subset hm)

theorem runScanner_single_frame {a b : Char} {body : List Char}
    (ha : a ∈ sentinelChars) (hb : b ∈ keywordClassChars)
    (hne : body ≠ []) (hnl : '\n' ∉ body) :
    ∀ (chunks : List (List Char)) (buf : List Char),
      buf ++ chunks.flatten = frameOf a b body →
      runScanner buf chunks = [frameOf a b body] := by
  intro chunks
  induction chunks with
  | nil =>
    intro buf h
    have hbuf : buf = frameOf a b body := by simpa using h
    subst hbuf
    show (drainAux (frameOf a b body).length (frameOf a b body)).1 = [frameOf a b body]
    have hlen2 : (frameOf a b body).length = (b :: (body ++ ['\r', '\n'])).length + 1 := by
      simp [frameOf]
    rw [hlen2, drainAux_frame ha hb hne hnl]
  | cons c cs ih =>
    intro buf h
    by_cases hfull : buf = frameOf a b body
    · subst hfull
      have hjoin : (c :: cs).flatten = [] := by
        have hl := congrArg List.length h
        rw [List.length_append] at hl
        have : ((c :: cs).flatten).length = 0 := by omega
        exact List.length_eq_zero.mp this
      have hc : c = [] ∧ cs.flatten = [] := by simpa using hjoin
      rcases hc with ⟨hc, hcs⟩
      subst hc
      show (drainAux (frameOf a b body).length (frameOf a b body)).1
          ++ runScanner ((drainAux (frameOf a b body).length (frameOf a b body)).2 ++ []) cs
          = [frameOf a b body]
      have hlen2 : (frameOf a b body).length = (b :: (body ++ ['\r', '\n'])).length + 1 := by
        simp [frameOf]
      rw [hlen2, drainAux_frame ha hb hne hnl]
      simpa using runScanner_flatten_nil cs hcs
    · have hsuffix : (c :: cs).flatten ≠ [] := by
        intro he
        apply hfull
        simpa [he] using h
      have hnobuf : '\n' ∉ buf := no_nl_of_proper_pre ha hb hnl h hsuffix
      show (drainAux buf.length buf).1 ++ runScanner ((drainAux buf.length buf).2 ++ c) cs
          = [frameOf a b body]
      rw [drainAux_of_none (scanOnce_of_not_mem hnobuf) buf.length]
      simp only [List.nil_append]
      exact ih (buf ++ c) (by simpa [List.append_assoc] using h)

/-- C7: tokenizer fragmentation invariance.  For every complete frame
(sentinel character, keyword-class character, nonempty newline-free
body, `\r\n` terminator): feeding it to the scanner as one chunk or
split across arbitrarily many byte chunks yields the identical single
decoded frame, and feeding any proper prefix (a candidate lacking its
terminator) emits nothing — it stays buffered, never a partial frame. -/
theorem C7_tokenizer_fragmentation_invariance
    (a b : Char) (body : List Char)
    (ha : a ∈ sentinelChars) (hb : b ∈ keywordClassChars)
    (hne : body ≠ []) (hnl : '\n' ∉ body) :
    (∀ chunks : List (List Char), chunks.flatten = frameOf a b body →
      runScanner [] chunks = [frameOf a b body]) ∧
    (∀ p s : List Char, p ++ s = frameOf a b body → s ≠ [] → runScanner [] [p] = []) := by
  constructor
  · intro chunks hj
    exact runScanner_single_frame ha hb hne hnl chunks [] (by simpa using hj)
  · intro p s happ hs
    have hnp : '\n' ∉ p := no_nl_of_proper_pre ha hb hnl happ hs
    have h1 : runScanner [] [p] = (drainAux p.length p).1 := rfl
    rw [h1, drainAux_of_none (scanOnce_of_not_mem hnp) p.length]

/-- Witness for C7 at the concrete frame `~OUTPUT,12,1,55.00\r\n`: split
into three chunks it still decodes to exactly that frame, and a
terminator-less prefix of it yields no token. -/
theorem C7_witness :
    runScanner [] [("~OU").toList, ("TPUT,12,1,55").toList, (".00" ++ "\r\n").toList]
      = [frameOf '~' 'O' (("UTPUT,12,1,55.00").toList)]
    ∧ runScanner [] [("~OUTPUT,12").toList] = [] := by
  refine ⟨(C7_tokenizer_fragmentation_invariance '~' 'O' (("UTPUT,12,1,55.00").toList)
      (by decide) (by decide) (by decide) (by decide)).1 _ (by decide),
    (C7_tokenizer_fragmentation_invariance '~' 'O' (("UTPUT,12,1,55.00").toList)
      (by decide) (by decide) (by decide) (by decide)).2
      (("~OUTPUT,12").toList) ((",1,55.00" ++ "\r\n").toList) (by decide) (by decide)⟩

/-- C1 (code bug): rendering `SetZoneLevel(zone="12", intensity=55)` on a
device owning zone "12" produces exactly `#OUTPUT,12,1,55.00\r\n`, but
feeding that text back through the inbound classifier of the same device
yields no command at all — no zone-set-level command, for no zone and no
intensity: `parseZoneCommand`'s regex sentinel class is `[~|?]`, which
does not accept the `#` that `buildCommand` renders, even though
`parseCommandString` routes `#OUTPUT` frames to it.  The claimed
round-trip fails for every zone and intensity. -/
theorem C1_roundtrip_broken :
    buildCommand pZone55 = .ok (some zcmd55)
    ∧ zcmd55.Value = "#OUTPUT,12,1,55.00" ++ "\r\n"
    ∧ parseCommandString devZ ("#OUTPUT,12,1,55.00" ++ "\r\n") = .ok (none, none) :=
  ⟨rfl, rfl, rfl⟩

/-- C4 (code bug): a DEVICE frame whose sub-device id does not resolve is
indeed dropped with no event and no error, but a frame whose sub-device
resolves while its button id does not resolve makes the classifier panic
(`buildCommand` dereferences the nil button), instead of dropping the
frame: classification is not total on unresolved references. -/
theorem C4_unresolved_button_panics :
    parseCommandString devD ("~DEVICE,77,3,3" ++ "\r\n") = .ok (none, none)
    ∧ parseCommandString devD ("~DEVICE,9,99,3" ++ "\r\n") = .error () :=
  ⟨rfl, rfl⟩

/-- C5 counterexample: for a sub-device whose display Name ("Phantom
Buttons") differs from its local id ("9"), rendering a press intent
produces `#DEVICE,Phantom Buttons,3,3\r\n` — the Name in the second
field — not the `#DEVICE,9,3,3\r\n` the claim requires. -/
theorem C5_counterexample :
    (buildCommand press9Params).map (Option.map StringCommand.Value)
      = .ok (some ("#DEVICE,Phantom Buttons,3,3" ++ "\r\n"))
    ∧ subDev9.LocalID = "9"
    ∧ ("#DEVICE,Phantom Buttons,3,3" ++ "\r\n") ≠ ("#DEVICE,9,3,3" ++ "\r\n") :=
  ⟨rfl, rfl, by decide⟩

/-- C5 amended: for every press-button and release-button intent with a
resolved source device and button, outbound rendering produces exactly
`#DEVICE,<sourceDevice.Name>,<buttonId>,3\r\n` (press) or
`#DEVICE,<sourceDevice.Name>,<buttonId>,4\r\n` (release): the second
field is the referenced sub-device's display Name, not its local id. -/
theorem C5_amended_value (p : commandBuilderParams) (sd : Device) (b : Button)
    (hsd : p.SourceDevice = some sd) (hb : p.Button = some b) :
    (p.CmdType = CommandType.CTDevicePressButton →
      (buildCommand p).map (Option.map StringCommand.Value)
        = .ok (some ("#DEVICE," ++ sd.Name ++ "," ++ b.LocalID ++ ",3\r\n")))
    ∧ (p.CmdType = CommandType.CTDeviceReleaseButton →
      (buildCommand p).map (Option.map StringCommand.Value)
        = .ok (some ("#DEVICE," ++ sd.Name ++ "," ++ b.LocalID ++ ",4\r\n"))) := by
  constructor <;> intro hct <;> simp [buildCommand, hct, hsd, hb, Except.map, Option.map]

/-- Witness for C5 amended, at the concrete press intent for `subDev9`
and `btn3`. -/
theorem C5_amended_witness :
    (buildCommand press9Params).map (Option.map StringCommand.Value)
      = .ok (some ("#DEVICE," ++ subDev9.Name ++ "," ++ btn3.LocalID ++ ",3\r\n")) :=
  (C5_amended_value press9Params subDev9 btn3 rfl rfl).1 rfl

/-- C6 counterexample: an inbound zone frame with a resolving zone id
("12") and the unsupported opcode "2" yields no command at all — so no
Event can carry an "unknown op" variant; the frame is dropped (without
an error). -/
theorem C6_counterexample :
    parseZoneCommand devZ ("~OUTPUT,12,2,55.00" ++ "\r\n") = .ok (none, some zone12) :=
  rfl

/-- C6 amended: for every inbound zone frame whose zone id resolves,
whose intensity parses, and whose opcode is not "1", classification
selects the unknown command type internally, but `buildCommand` returns
no command for it: the frame yields no command (hence no Event) and no
error — it is silently dropped rather than surfaced as an "unknown op"
event. -/
theorem C6_unknown_op_dropped (d : Device) (s : String)
    (zid op istr : List Char) (z : Zone) (dec : DecF)
    (hm : findSubmatch zoneSentinels (("OUTPUT,").toList) s.toList = some (zid, op, istr))
    (hop : String.mk op ≠ "1")
    (hf : parseFloatDec (String.mk istr) = some dec)
    (hz : goLookup d.Zones (String.mk zid) = some z) :
    parseZoneCommand d s = .ok (none, some z) := by
  unfold parseZoneCommand
  rw [hm]
  simp [hf, hz, hop, buildCommand, Except.map, Option.map]

/-- Witness for C6 amended at the concrete frame `~OUTPUT,12,7,55.00\r\n`
on the sample device owning zone "12". -/
theorem C6_witness :
    parseZoneCommand devZ ("~OUTPUT,12,7,55.00" ++ "\r\n") = .ok (none, some zone12) :=
  C6_unknown_op_dropped devZ ("~OUTPUT,12,7,55.00" ++ "\r\n")
    (("12").toList) (("7").toList) (("55.00").toList) zone12 { mant := 5500, exp := 2 }
    (by decide) (by decide) (by decide) (by decide)

/-- C2 (code bug): in the interleaving semantics of the two listener
goroutines launched by `StartConsumingEvents` — whose entry into
`executeAction` is guarded by nothing but their own phase, since the
source takes no lock — the state in which both listeners are inside
`executeAction` simultaneously is reachable from the idle state.  Two
near-simultaneous fires can therefore overlap; per-recipe serialization
does not hold. -/
theorem C2_overlap_reachable : RecipeReachable idleState overlapState := by
  have s1 : RecipeStep idleState
      { asyncPhase := ExecPhase.executing, eventPhase := ExecPhase.idle } :=
    RecipeStep.asyncBegin idleState rfl
  have s2 : RecipeStep
      { asyncPhase := ExecPhase.executing, eventPhase := ExecPhase.idle } overlapState :=
    RecipeStep.eventBegin { asyncPhase := ExecPhase.executing, eventPhase := ExecPhase.idle } rfl
  exact Relation.ReflTransGen.head s1 (Relation.ReflTransGen.single s2)

/-- C3 (code bug): the `startStreaming` retry loop runs `stream` and then
sleeps the fixed 10-second delay on every iteration, forever; its state
never becomes exited — including when cancellation (device removal) is
requested, because the loop consults no cancellation signal at all. -/
theorem C3_retry_never_exits (cancelRequested : Bool)
    (streamResults : Nat → Option String) (n : Nat) :
    (startStreamingRun cancelRequested streamResults n).exited = false
    ∧ (startStreamingRun cancelRequested streamResults n).iterations = n
    ∧ (startStreamingRun cancelRequested streamResults n).sleptSeconds = 10 * n := by
  induction n with
  | zero => exact ⟨rfl, rfl, rfl⟩
  | succ k ih =>
    rcases ih with ⟨h1, h2, h3⟩
    refine ⟨rfl, ?_, ?_⟩
    · simp [startStreamingRun, startStreamingStep, h2]
    · simp [startStreamingRun, startStreamingStep, h3]
      omega

theorem processTokens_filter_release (d : Device) :
    ∀ ts, ((processTokens d ts).1.filter StreamOp.isRelease) = []
  | [] => rfl
  | t :: ts => by
    have ih := processTokens_filter_release d ts
    unfold processTokens
    rcases hp : parseCommandString d (String.mk t) with u | ⟨_ | c, src⟩ <;>
      simp [hp, ih, StreamOp.isRelease]

theorem processTokens_filter_done (d : Device) :
    ∀ ts, ((processTokens d ts).1.filter StreamOp.isDoneOp) = []
  | [] => rfl
  | t :: ts => by
    have ih := processTokens_filter_done d ts
    unfold processTokens
    rcases hp : parseCommandString d (String.mk t) with u | ⟨_ | c, src⟩ <;>
      simp [hp, ih, StreamOp.isDoneOp]

/-- C8: every connection the streaming cycle obtains from the pool is
released back exactly once, on every exit path — connect failure
releases nothing (nothing was obtained), and any acquired connection is
released exactly once whether the scanner terminates normally, every
frame is dropped by parsing, a parse panics, or the read errors
(including when the very first read after acquiring fails, i.e. `chunks
= []` with a read error). -/
theorem C8_release_exactly_once (d : Device) (connectResult : Option Nat)
    (chunks : List (List Char)) (readErr : Option String) :
    ((streamTrace d connectResult chunks readErr).1.filter StreamOp.isRelease)
      = (match connectResult with
         | some c => [StreamOp.poolRelease c]
         | none => []) := by
  cases connectResult with
  | none => rfl
  | some c =>
    show ((StreamOp.poolGet (some c) :: (processTokens d (runScanner [] chunks)).1
        ++ [StreamOp.poolRelease c]).filter StreamOp.isRelease) = [StreamOp.poolRelease c]
    simp [List.filter_cons, List.filter_append, StreamOp.isRelease,
      processTokens_filter_release d (runScanner [] chunks)]

theorem streamTrace_filter_done (d : Device) (cr : Option Nat)
    (chunks : List (List Char)) (re : Option String) :
    ((streamTrace d cr chunks re).1.filter StreamOp.isDoneOp) = [] := by
  cases cr with
  | none => rfl
  | some c =>
    show ((StreamOp.poolGet (some c) :: (processTokens d (runScanner [] chunks)).1
        ++ [StreamOp.poolRelease c]).filter StreamOp.isDoneOp) = []
    simp [List.filter_cons, List.filter_append, StreamOp.isDoneOp,
      processTokens_filter_done d (runScanner [] chunks)]

/-- C10: the done channel returned by `StartProducingEvents` is never
sent on and never closed by the streaming machinery: across any number
of retry-loop iterations, with any connect results, reads, parse
outcomes (drops, events, panics) and read errors, the operation trace
contains no done-channel operation — so a caller waiting on that channel
waits forever. -/
theorem C10_done_channel_never_signalled (d : Device)
    (inputs : Nat → StreamCycleInput) (n : Nat) :
    ((startStreamingTrace d inputs n).filter StreamOp.isDoneOp) = [] := by
  induction n with
  | zero => rfl
  | succ k ih =>
    show (((startStreamingTrace d inputs k)
        ++ (streamTrace d (inputs k).connectResult (inputs k).chunks (inputs k).readErr).1).filter
          StreamOp.isDoneOp) = []
    simp [List.filter_append, ih, streamTrace_filter_done]

theorem consumerRun_disabled (tpe : Bool) (trig : EventM → Bool) :
    ∀ (inputs : List ConsumerInput) (s : ConsumerState), s.enabled = false →
      inputs.all ConsumerInput.isSignal = true → consumerRun tpe trig s inputs = s
  | [], s, _, _ => rfl
  | i :: inputs, s, hdis, hall => by
    have h2 : inputs.all ConsumerInput.isSignal = true := by
      simp only [List.all_cons, Bool.and_eq_true] at hall
      exact hall.2
    have hstep : consumerStep tpe trig s i = s := by
      cases i with
      | setEnabled b => simp [List.all_cons, ConsumerInput.isSignal] at hall
      | deliverEvent e => simp [consumerStep, hdis]
      | fireSignal f => simp [consumerStep, hdis]
    show consumerRun tpe trig (consumerStep tpe trig s i) inputs = s
    rw [hstep]
    exact consumerRun_disabled tpe trig inputs s hdis h2

/-- C9: the enabled flag gates action execution only, and is consulted
per evaluation.  `SetEnabled` changes nothing but the flag — both
listener-running indicators and the subscription are untouched, no
teardown or restart; while the flag is false, any sequence of delivered
events and fire signals leaves the state (execution count included)
exactly unchanged though the listeners keep consuming; with the flag
true again, a matching event, or a true fire signal, executes the
action. -/
theorem C9_enabled_gates_only (tpe : Bool) (trig : EventM → Bool) (s : ConsumerState) :
    (∀ bv : Bool,
      consumerStep tpe trig s (ConsumerInput.setEnabled bv) = { s with enabled := bv })
    ∧ (s.enabled = false → ∀ inputs : List ConsumerInput,
        inputs.all ConsumerInput.isSignal = true → consumerRun tpe trig s inputs = s)
    ∧ (∀ e, s.enabled = true → tpe = true → trig e = true →
        consumerStep tpe trig s (ConsumerInput.deliverEvent e)
          = { s with executions := s.executions + 1 })
    ∧ (s.enabled = true →
        consumerStep tpe trig s (ConsumerInput.fireSignal true)
          = { s with executions := s.executions + 1 }) := by
  refine ⟨fun bv => rfl, ?_, ?_, ?_⟩
  · intro hdis inputs hall
    exact consumerRun_disabled tpe trig inputs s hdis hall
  · intro e hen htpe htr
    simp [consumerStep, hen, htpe, htr]
  · intro hen
    simp [consumerStep, hen]

/-- Witness for C9 at concrete states: while disabled, a matching event
followed by a true fire signal leaves the recipe state unchanged (and
its listeners running); with the flag set to true, the same event
executes the action once. -/
theorem C9_witness :
    consumerRun true (fun _ => true) consumerS0
      [ConsumerInput.deliverEvent evSample, ConsumerInput.fireSignal true] = consumerS0
    ∧ consumerStep true (fun _ => true) { consumerS0 with enabled := true }
        (ConsumerInput.deliverEvent evSample)
      = { consumerS0 with enabled := true, executions := 1 } := by
  constructor
  · exact (C9_enabled_gates_only true (fun _ => true) consumerS0).2.1 rfl _ (by decide)
  · exact (C9_enabled_gates_only true (fun _ => true)
      { consumerS0 with enabled := true }).2.2.1 evSample rfl rfl rfl
